import Mathlib

/-!
Shallow embedding of the FMR PHY-rate decoder of `gocoax_api.py`
(`GoCoaxAPI.get_phy_rates`), together with theorems settling the frozen
claims about it.

Raw register dumps arrive as hexadecimal strings; a word that parses is
modelled as `some w : Option Nat`, a word whose conversion fails as `none`,
and an out-of-range access as a failed `List.get?`.  Python's caught
per-cell exceptions become `Option`-valued cell decoders; exceptions that
the Python code lets surface become a `none` result of the whole decode.
-/

namespace GoCoax

/-- Constant from the source: maximal number of MoCA nodes. -/
def MAX_NUM_NODES : Nat := 16

/-- Constant from the source: LDPC codeword length, 100 MHz profile. -/
def LDPC_LEN_100MHZ : Nat := 3900

/-- Constant from the source: LDPC codeword length, 50 MHz profile. -/
def LDPC_LEN_50MHZ : Nat := 1200

/-- Constant from the source: FFT length, 100 MHz profile. -/
def FFT_LEN_100MHZ : Nat := 512

/-- Constant from the source: FFT length, 50 MHz profile. -/
def FFT_LEN_50MHZ : Nat := 256

/-- The fields decoded from one (row, column) FMR block:
`gapNper`/`ofdmbNper` are the primary profile, `gapVLper`/`ofdmbVLper`
the secondary ("VL") profile. -/
structure DecodedField where
  gapNper : Nat
  gapVLper : Nat
  ofdmbNper : Nat
  ofdmbVLper : Nat
deriving Repr, DecidableEq

/-- Cursor state of the FMR field decoder: word index and alignment flag. -/
structure DecState where
  readIndx : Nat
  alignmentFlag : Bool
deriving Repr, DecidableEq

/-- Initial cursor state at the start of each row (`readIndx = 10`,
`alignmentFlag = True` in the source). -/
def initState : DecState := { readIndx := 10, alignmentFlag := true }

/-- Read word `i` of an FMR dump.  `none` when the index is out of range
or when the hex-string conversion of that word failed. -/
def readWord (fmr : List (Option Nat)) (i : Nat) : Option Nat :=
  (fmr.get? i).bind id

/-- Effective payload version for one cell (lines 389-392 of the source):
`min(entryNodePayloadVer, node_jd_mocaNodeVer)` when the network
coordinator is MoCA 1.x, else the row node's own version byte, where
`entryNodePayloadVer = min(rowVer, ncMocaVer)`. -/
def fmrPayloadVer (ncMocaVer rowVer colVer : Nat) : Nat :=
  if ncMocaVer < 0x20 then min (min rowVer ncMocaVer) colVer else rowVer

/-- Decode one column's field block (the `try` body of lines 396-427 of
the source, up to and including the alignment flip).  Returns `none`
exactly when one of the word reads the Python code performs raises. -/
def decodeField (ver : Nat) (fmr : List (Option Nat)) (s : DecState) :
    Option (DecodedField × DecState) :=
  if ver = 0x20 ∨ ver = 0x25 then
    if s.alignmentFlag then
      match readWord fmr s.readIndx, readWord fmr (s.readIndx + 1) with
      | some val1, some val2 =>
          some ({ gapNper := (val1 >>> 24) &&& 0xFF,
                  gapVLper := (val1 >>> 16) &&& 0xFF,
                  ofdmbNper := val1 &&& 0xFFFF,
                  ofdmbVLper := (val2 >>> 16) &&& 0xFFFF },
                { readIndx := s.readIndx + 1, alignmentFlag := !s.alignmentFlag })
      | _, _ => none
    else
      match readWord fmr s.readIndx, readWord fmr (s.readIndx + 1) with
      | some val1, some val2 =>
          some ({ gapNper := (val1 >>> 8) &&& 0xFF,
                  gapVLper := val1 &&& 0xFF,
                  ofdmbNper := (val2 >>> 16) &&& 0xFFFF,
                  ofdmbVLper := val2 &&& 0xFFFF },
                { readIndx := s.readIndx + 2, alignmentFlag := !s.alignmentFlag })
      | _, _ => none
  else
    match readWord fmr s.readIndx with
    | some val =>
        if s.alignmentFlag then
          some ({ gapNper := (val &&& 0xF8000000) >>> 27,
                  gapVLper := 0,
                  ofdmbNper := (val &&& 0x07FF0000) >>> 16,
                  ofdmbVLper := 0 },
                { readIndx := s.readIndx, alignmentFlag := !s.alignmentFlag })
        else
          some ({ gapNper := (val &&& 0x0000F800) >>> 11,
                  gapVLper := 0,
                  ofdmbNper := val &&& 0x000007FF,
                  ofdmbVLper := 0 },
                { readIndx := s.readIndx + 1, alignmentFlag := !s.alignmentFlag })
    | none => none

/-- Denominator of the 50 MHz profile rate formula. -/
def den50 (gap : Nat) : Nat := (FFT_LEN_50MHZ + (gap * 2 + 10)) * 26

/-- Denominator of the 100 MHz profile rate formula. -/
def den100 (gap : Nat) : Nat := (FFT_LEN_100MHZ + ((gap + 10) * 2)) * 46

/-- Secondary ("VL") rate of one cell (lines 430-437 of the source). -/
def rateVl (f : DecodedField) : Nat :=
  if f.gapVLper = 0 then 0
  else (LDPC_LEN_100MHZ * f.ofdmbVLper) / den100 f.gapVLper

/-- Primary rate of one cell (lines 439-454 of the source). -/
def rateN (ver : Nat) (f : DecodedField) : Nat :=
  if f.gapNper = 0 then 0
  else if f.gapVLper = 0 ∧ ver = 0x20 then
    (LDPC_LEN_50MHZ * f.ofdmbNper) / den50 f.gapNper
  else
    (LDPC_LEN_100MHZ * f.ofdmbNper) / den100 f.gapNper

/-- Diagonal GCD rate update (lines 457-475 of the source): selected by the
row node's own version high nibble, keeping the previous value when the
nibble is neither `0x10` nor `0x20`. -/
def rateGcdCalc (mocaNodeVer : Nat) (f : DecodedField) (prev : Nat) : Nat :=
  if mocaNodeVer &&& 0xF0 = 0x10 then
    (LDPC_LEN_50MHZ * f.ofdmbNper) / den50 f.gapNper
  else if mocaNodeVer &&& 0xF0 = 0x20 then
    (LDPC_LEN_100MHZ * f.ofdmbNper) / den100 f.gapNper
  else prev

/-- Accumulator threaded across the columns of one row: cursor state, the
row of primary rates, the row of secondary rates, and the GCD entry. -/
structure RowAcc where
  s : DecState
  rates : List Nat
  ratesVl : List Nat
  gcd : Nat
deriving Repr, DecidableEq

/-- Initial accumulator for a row. -/
def initRowAcc : RowAcc := { s := initState, rates := [], ratesVl := [], gcd := 0 }

/-- Decode one column of one row (body of the `jd_index` loop, lines
387-480 of the source).  On a decode failure the cell's primary and
secondary rates are 0, the GCD entry is untouched and the cursor state is
kept. -/
def decodeColumn (ncMocaVer rowVer : Nat) (rowId : Nat) (verOf : Nat → Nat)
    (fmr : List (Option Nat)) (acc : RowAcc) (colId : Nat) : RowAcc :=
  let colVer := verOf colId &&& 0xFF
  let ver := fmrPayloadVer ncMocaVer rowVer colVer
  match decodeField ver fmr acc.s with
  | some (f, s') =>
      { s := s',
        rates := acc.rates ++ [rateN ver f],
        ratesVl := acc.ratesVl ++ [rateVl f],
        gcd := if rowId = colId then rateGcdCalc rowVer f acc.gcd else acc.gcd }
  | none =>
      { s := acc.s,
        rates := acc.rates ++ [0],
        ratesVl := acc.ratesVl ++ [0],
        gcd := acc.gcd }

/-- Decode one full row: fold `decodeColumn` over the active node list,
starting from the initial cursor state. -/
def decodeRow (ncMocaVer rowVer : Nat) (rowId : Nat) (verOf : Nat → Nat)
    (fmr : List (Option Nat)) (nodeId : List Nat) : RowAcc :=
  nodeId.foldl (decodeColumn ncMocaVer rowVer rowId verOf fmr) initRowAcc

/-- Cursor states observed at the start of each successive column of one
row (the first entry is the state at the start of the first column). -/
def rowStateSeq (ncMocaVer rowVer : Nat) (rowId : Nat) (verOf : Nat → Nat)
    (fmr : List (Option Nat)) (nodeId : List Nat) : List DecState :=
  (nodeId.scanl (decodeColumn ncMocaVer rowVer rowId verOf fmr) initRowAcc).map RowAcc.s

/-- Ascending list of active node ids for a 16-bit bitmask (the
`nodeId` list built by lines 350-358 of the source). -/
def activeNodes (mask : Nat) : List Nat :=
  (List.range MAX_NUM_NODES).filter (fun i => mask &&& (1 <<< i) ≠ 0)

/-- Pad a row to `MAX_NUM_NODES` entries with zeroes, mirroring the
pre-allocated `[0]*MAX_NUM_NODES` rows of the source. -/
def padRow (l : List Nat) : List Nat := l ++ List.replicate (MAX_NUM_NODES - l.length) 0

/-- Result structure of `get_phy_rates`. -/
structure PhyRatesResult where
  nodes : List Nat
  rates : List (List Nat)
  gcdRates : List Nat
deriving Repr, DecidableEq

/-- Matrix decode over already-validated inputs (step 4 of the source,
lines 380-487): `ncMocaVer` is the NC's masked version byte, `verOf n` the
raw word 4 of node n's net-info dump, `fmrOf n` node n's FMR dump. -/
def decodeMatrix (ncMocaVer : Nat) (verOf : Nat → Nat)
    (fmrOf : Nat → List (Option Nat)) (nodeId : List Nat) : PhyRatesResult :=
  let rowOf := fun rowId =>
    decodeRow ncMocaVer (verOf rowId &&& 0xFF) rowId verOf (fmrOf rowId) nodeId
  { nodes := nodeId,
    rates := (List.range MAX_NUM_NODES).map (fun i =>
      match nodeId.get? i with
      | some rid => padRow (rowOf rid).rates
      | none => List.replicate MAX_NUM_NODES 0),
    gcdRates := (List.range MAX_NUM_NODES).map (fun i =>
      match nodeId.get? i with
      | some rid => (rowOf rid).gcd
      | none => 0) }

/-- Full PHY-rate decode (`get_phy_rates`): parse the topology words
(own id at word 0, NC id at word 1 low byte, network version at word 11,
bitmask at word 12); the source's `netInfo` array has 16 slots and holds a
dump only for active nodes, so reading the NC's version byte requires the
masked NC id to be below 16 and its bit set in the bitmask (otherwise
`netInfo[ncNodeID]` is `None` or out of range and the read raises); then
read the version byte (word 4 of the net-info dump) of the NC and of
every active node, and decode the matrix.  Any of those reads failing
makes the whole operation yield `none`, matching the uncaught exceptions
of the source. -/
def getPhyRates (localInfo : List Nat) (netInfoOf : Nat → List Nat)
    (fmrOf : Nat → List (Option Nat)) : Option PhyRatesResult :=
  match localInfo.get? 0, localInfo.get? 1, localInfo.get? 11, localInfo.get? 12 with
  | some _, some w1, some _, some w12 =>
      if (w1 &&& 0xFF) < MAX_NUM_NODES ∧ w12 &&& (1 <<< (w1 &&& 0xFF)) ≠ 0 then
        match (netInfoOf (w1 &&& 0xFF)).get? 4 with
        | none => none
        | some ncWord =>
            if (activeNodes w12).all (fun n => ((netInfoOf n).get? 4).isSome) then
              some (decodeMatrix (ncWord &&& 0xFF)
                (fun n => ((netInfoOf n).get? 4).getD 0) fmrOf (activeNodes w12))
            else none
      else none
  | _, _, _, _ => none

end GoCoax

namespace GoCoax

/-- Concrete scenario inputs: topology with active nodes {0, 3} (bitmask
`0b1001 = 9`), NC node 0, every version byte `0x20`, and node 0's FMR dump
holding words 0..11 only, so the block of the second column needs word 12
and is out of range. -/
def scLocalInfo : List Nat := [0, 0, 0, 0, 0, 0, 0, 0, 0, 0, 0, 0, 9]

def scNetInfo : Nat → List Nat := fun _ => [0, 0, 0, 0, 0x20]

def scFmr : Nat → List (Option Nat) := fun n =>
  if n = 0 then (List.replicate 10 (some 0)) ++ [some 0x0200012C, some 0] else []

/-!
Helper lemmas shared between the claim theorems.
-/

/-- On a successful field decode the cursor never moves backwards and the
alignment flag is flipped. -/
lemma decodeField_state {ver : Nat} {fmr : List (Option Nat)} {s : DecState}
    {f : DecodedField} {s' : DecState}
    (h : decodeField ver fmr s = some (f, s')) :
    s.readIndx ≤ s'.readIndx ∧ s'.alignmentFlag = !s.alignmentFlag := by
  unfold decodeField at h
  split at h
  · split at h
    · split at h
      · cases h
        constructor
        · exact Nat.le_succ _
        · rfl
      · exact absurd h (by simp)
    · split at h
      · cases h
        constructor
        · exact Nat.le_add_right _ 2
        · rfl
      · exact absurd h (by simp)
  · split at h
    · split at h
      · cases h
        exact ⟨Nat.le_refl _, rfl⟩
      · cases h
        exact ⟨Nat.le_succ _, rfl⟩
    · exact absurd h (by simp)

/-- One column step appends exactly one primary and one secondary rate. -/
lemma decodeColumn_rates_length (ncv rv rid : Nat) (verOf : Nat → Nat)
    (fmr : List (Option Nat)) (acc : RowAcc) (colId : Nat) :
    (decodeColumn ncv rv rid verOf fmr acc colId).rates.length = acc.rates.length + 1 := by
  unfold decodeColumn
  cases h : decodeField (fmrPayloadVer ncv rv (verOf colId &&& 0xFF)) fmr acc.s with
  | none => simp [h]
  | some p =>
      obtain ⟨f, s'⟩ := p
      simp [h]

/-- A fold of column steps over any node list grows the rate row by one
entry per column. -/
lemma foldl_decodeColumn_length (ncv rv rid : Nat) (verOf : Nat → Nat)
    (fmr : List (Option Nat)) :
    ∀ (nodeId : List Nat) (acc : RowAcc),
      (nodeId.foldl (decodeColumn ncv rv rid verOf fmr) acc).rates.length =
        acc.rates.length + nodeId.length := by
  intro nodeId
  induction nodeId with
  | nil => intro acc; simp
  | cons c cs ih =>
      intro acc
      rw [List.foldl_cons, ih, List.length_cons,
        decodeColumn_rates_length]
      omega

/-- A scan along any step function whose single step respects `R` yields an
`R`-chain. -/
lemma chain'_scanl {α β : Type} (R : α → α → Prop) (f : α → β → α)
    (hf : ∀ a b, R a (f a b)) :
    ∀ (l : List β) (a : α), List.Chain' R (List.scanl f a l) := by
  intro l
  induction l with
  | nil => intro a; simp [List.scanl_nil]
  | cons b bs ih =>
      intro a
      rw [List.scanl_cons, List.singleton_append, List.chain'_cons']
      refine ⟨?_, ih (f a b)⟩
      intro y hy
      have hhead : (List.scanl f (f a b) bs).head? = some (f a b) := by
        cases bs <;> simp [List.scanl_nil, List.scanl_cons]
      rw [hhead, Option.mem_def, Option.some_inj] at hy
      rw [← hy]
      exact hf a b

/-- Decoding a row yields exactly one primary rate per active node. -/
lemma decodeRow_rates_length (ncv rv rid : Nat) (verOf : Nat → Nat)
    (fmr : List (Option Nat)) (nodeId : List Nat) :
    (decodeRow ncv rv rid verOf fmr nodeId).rates.length = nodeId.length := by
  unfold decodeRow
  rw [foldl_decodeColumn_length]
  simp [initRowAcc]

/-- There are at most `MAX_NUM_NODES` active nodes. -/
lemma activeNodes_length_le (mask : Nat) :
    (activeNodes mask).length ≤ MAX_NUM_NODES := by
  have h := List.length_filter_le
    (fun i => decide (mask &&& (1 <<< i) ≠ 0)) (List.range MAX_NUM_NODES)
  simpa [activeNodes] using h

/-- Padding a row of at most `MAX_NUM_NODES` cells yields exactly
`MAX_NUM_NODES` cells. -/
lemma padRow_length (l : List Nat) (h : l.length ≤ MAX_NUM_NODES) :
    (padRow l).length = MAX_NUM_NODES := by
  simp only [padRow, List.length_append, List.length_replicate]
  omega

/-- Shape of the decoded matrix: always `MAX_NUM_NODES` rows of
`MAX_NUM_NODES` cells and `MAX_NUM_NODES` GCD entries. -/
lemma decodeMatrix_shape (ncv : Nat) (verOf : Nat → Nat)
    (fmrOf : Nat → List (Option Nat)) (nodeId : List Nat)
    (h : nodeId.length ≤ MAX_NUM_NODES) :
    (decodeMatrix ncv verOf fmrOf nodeId).rates.length = MAX_NUM_NODES ∧
      (∀ row ∈ (decodeMatrix ncv verOf fmrOf nodeId).rates,
        row.length = MAX_NUM_NODES) ∧
      (decodeMatrix ncv verOf fmrOf nodeId).gcdRates.length = MAX_NUM_NODES ∧
      (decodeMatrix ncv verOf fmrOf nodeId).nodes.length ≤ MAX_NUM_NODES := by
  refine ⟨by simp [decodeMatrix], ?_, by simp [decodeMatrix], by simpa [decodeMatrix]⟩
  intro row hrow
  simp only [decodeMatrix] at hrow
  obtain ⟨i, _, heq⟩ := List.mem_map.mp hrow
  rw [← heq]
  cases hg : nodeId.get? i with
  | none => simp [hg]
  | some rid =>
      simp only [hg]
      rw [padRow_length]
      rw [decodeRow_rates_length]
      exact h

/-- One column step either keeps the cursor state (on decode failure) or
advances the index and flips the alignment flag. -/
lemma decodeColumn_step (ncv rv rid : Nat) (verOf : Nat → Nat)
    (fmr : List (Option Nat)) (acc : RowAcc) (colId : Nat) :
    acc.s.readIndx ≤ (decodeColumn ncv rv rid verOf fmr acc colId).s.readIndx ∧
      ((decodeColumn ncv rv rid verOf fmr acc colId).s.alignmentFlag =
          !acc.s.alignmentFlag ∨
        (decodeColumn ncv rv rid verOf fmr acc colId).s = acc.s) := by
  unfold decodeColumn
  cases h : decodeField (fmrPayloadVer ncv rv (verOf colId &&& 0xFF)) fmr acc.s with
  | none => simp [h]
  | some p =>
      obtain ⟨f, s'⟩ := p
      obtain ⟨hle, hflag⟩ := decodeField_state h
      simp only [h]
      exact ⟨hle, Or.inl hflag⟩

end GoCoax

namespace GoCoax

/-!
Claim theorems.
-/

/-- C1, counterexample: with the network coordinator at version `0x10` and
row and column nodes at `0x20`, the effective payload version computed by
the code is `0x10`, not `min 0x20 0x20 = 0x20` as the claim states. -/
theorem C1_counterexample : fmrPayloadVer 0x10 0x20 0x20 ≠ min 0x20 0x20 := by
  decide

/-- C1 (amended): if the network coordinator's version byte is below
`0x20`, the effective payload version for cell (r, c) is the minimum of the
row node's version, the NC's version and the column node's version;
otherwise it is the row node's own version byte. -/
theorem C1_effective_version (ncMocaVer rowVer colVer : Nat) :
    (ncMocaVer < 0x20 →
      fmrPayloadVer ncMocaVer rowVer colVer = min rowVer (min ncMocaVer colVer)) ∧
    (0x20 ≤ ncMocaVer → fmrPayloadVer ncMocaVer rowVer colVer = rowVer) := by
  constructor
  · intro h
    rw [fmrPayloadVer, if_pos h, Nat.min_assoc]
  · intro h
    rw [fmrPayloadVer, if_neg (by omega)]

/-- C1 witness: the amended statement at the concrete versions of the
counterexample. -/
theorem C1_witness :
    fmrPayloadVer 0x10 0x20 0x20 = min 0x20 (min 0x10 0x20) ∧
      fmrPayloadVer 0x25 0x11 0x20 = 0x11 :=
  ⟨(C1_effective_version 0x10 0x20 0x20).1 (by decide),
   (C1_effective_version 0x25 0x11 0x20).2 (by decide)⟩

/-- C2: with effective version `0x20` or `0x25` and both needed words
readable, the decoder extracts the fields exactly as the claim states:
alignment true takes bits 24-31, 16-23, 0-15 of the word at the cursor and
bits 16-31 of the next word, advancing by 1; alignment false takes bits
8-15 and 0-7 of the word at the cursor and bits 16-31, 0-15 of the next
word, advancing by 2; the alignment flag is flipped either way. -/
theorem C2_moca2_layout (ver : Nat) (hver : ver = 0x20 ∨ ver = 0x25)
    (fmr : List (Option Nat)) (s : DecState) (v1 v2 : Nat)
    (h1 : readWord fmr s.readIndx = some v1)
    (h2 : readWord fmr (s.readIndx + 1) = some v2) :
    decodeField ver fmr s =
      if s.alignmentFlag then
        some ({ gapNper := (v1 >>> 24) &&& 0xFF,
                gapVLper := (v1 >>> 16) &&& 0xFF,
                ofdmbNper := v1 &&& 0xFFFF,
                ofdmbVLper := (v2 >>> 16) &&& 0xFFFF },
              { readIndx := s.readIndx + 1, alignmentFlag := !s.alignmentFlag })
      else
        some ({ gapNper := (v1 >>> 8) &&& 0xFF,
                gapVLper := v1 &&& 0xFF,
                ofdmbNper := (v2 >>> 16) &&& 0xFFFF,
                ofdmbVLper := v2 &&& 0xFFFF },
              { readIndx := s.readIndx + 2, alignmentFlag := !s.alignmentFlag }) := by
  unfold decodeField
  rw [if_pos hver]
  cases hA : s.alignmentFlag <;> simp [h1, h2]

/-- C2 witness: the MoCA-2.x layout at a concrete word pair. -/
theorem C2_witness :
    decodeField 0x20 (scFmr 0) initState =
      some ({ gapNper := 2, gapVLper := 0, ofdmbNper := 300, ofdmbVLper := 0 },
            { readIndx := 11, alignmentFlag := false }) := by
  have h := C2_moca2_layout 0x20 (Or.inl rfl) (scFmr 0) initState 0x0200012C 0
    (by decide) (by decide)
  rw [h]
  decide

/-- C3: with any effective version other than `0x20` and `0x25` and the
word at the cursor readable, the decoder zeroes the secondary fields and
extracts the primary fields exactly as the claim states: alignment true
takes bits 27-31 and 16-26 without advancing; alignment false takes bits
11-15 and 0-10 and advances by 1; the alignment flag is flipped either
way. -/
theorem C3_moca1_layout (ver : Nat) (hver : ver ≠ 0x20 ∧ ver ≠ 0x25)
    (fmr : List (Option Nat)) (s : DecState) (v : Nat)
    (h : readWord fmr s.readIndx = some v) :
    decodeField ver fmr s =
      if s.alignmentFlag then
        some ({ gapNper := (v &&& 0xF8000000) >>> 27,
                gapVLper := 0,
                ofdmbNper := (v &&& 0x07FF0000) >>> 16,
                ofdmbVLper := 0 },
              { readIndx := s.readIndx, alignmentFlag := !s.alignmentFlag })
      else
        some ({ gapNper := (v &&& 0x0000F800) >>> 11,
                gapVLper := 0,
                ofdmbNper := v &&& 0x000007FF,
                ofdmbVLper := 0 },
              { readIndx := s.readIndx + 1, alignmentFlag := !s.alignmentFlag }) := by
  unfold decodeField
  rw [if_neg (by tauto)]
  cases hA : s.alignmentFlag <;> simp [h]

/-- C3 witness: the MoCA-1.x layout at a concrete word. -/
theorem C3_witness :
    decodeField 0x11 (scFmr 0) initState =
      some ({ gapNper := 0, gapVLper := 0, ofdmbNper := 0x200, ofdmbVLper := 0 },
            { readIndx := 10, alignmentFlag := false }) := by
  have h := C3_moca1_layout 0x11 (by decide) (scFmr 0) initState 0x0200012C
    (by decide)
  rw [h]
  decide

/-- C4, counterexample: at effective version `0x20` with `gapSecondary = 0`,
`gapPrimary = 2` and `ofdmPrimary = 300` the code's primary rate is not 24
as the claim computes. -/
theorem C4_counterexample :
    rateN 0x20 { gapNper := 2, gapVLper := 0, ofdmbNper := 300, ofdmbVLper := 0 } ≠
      24 := by
  decide

/-- C4 (amended): at effective version `0x20` with `gapSecondary = 0`,
`gapPrimary = 2` and `ofdmPrimary = 300`, the 50 MHz profile is selected
and the primary rate is `(1200*300) / ((256+(2*2+10))*26) = 360000 / 7020
= 51`. -/
theorem C4_scenario_B :
    rateN 0x20 { gapNper := 2, gapVLper := 0, ofdmbNper := 300, ofdmbVLper := 0 } =
        (LDPC_LEN_50MHZ * 300) / ((FFT_LEN_50MHZ + (2 * 2 + 10)) * 26) ∧
      rateN 0x20 { gapNper := 2, gapVLper := 0, ofdmbNper := 300, ofdmbVLper := 0 } =
        51 := by
  constructor <;> decide

/-- C5: a decode failure at one column zeroes exactly that cell's primary
and secondary rates, leaving the accumulator otherwise untouched; a row
always yields one rate per column (no abort); and concretely, with active
nodes `[0, 3]` and node 0's FMR dump too short for node 3's field block,
`rates[0][1] = 0` while `rates[0][0] = 51 ≠ 0`. -/
theorem C5_cell_isolation :
    (∀ (ncv rv rid : Nat) (verOf : Nat → Nat) (fmr : List (Option Nat))
        (acc : RowAcc) (colId : Nat),
      decodeField (fmrPayloadVer ncv rv (verOf colId &&& 0xFF)) fmr acc.s = none →
        decodeColumn ncv rv rid verOf fmr acc colId =
          { s := acc.s, rates := acc.rates ++ [0], ratesVl := acc.ratesVl ++ [0],
            gcd := acc.gcd }) ∧
    (∀ (ncv rv rid : Nat) (verOf : Nat → Nat) (fmr : List (Option Nat))
        (nodeId : List Nat),
      (decodeRow ncv rv rid verOf fmr nodeId).rates.length = nodeId.length) ∧
    ((getPhyRates scLocalInfo scNetInfo scFmr).map
        (fun r => ((r.rates.getD 0 []).getD 0 99, (r.rates.getD 0 []).getD 1 99)) =
      some (51, 0) ∧ (51 : Nat) ≠ 0) := by
  refine ⟨?_, decodeRow_rates_length, by decide, by decide⟩
  intro ncv rv rid verOf fmr acc colId h
  unfold decodeColumn
  simp [h]

/-- C5 witness: the failure branch at a concrete column whose field block
is out of range. -/
theorem C5_witness :
    decodeColumn 0x20 0x20 0 (fun _ => 0x20) [] initRowAcc 3 =
      { s := initState, rates := [0], ratesVl := [0], gcd := 0 } := by
  have h := C5_cell_isolation.1 0x20 0x20 0 (fun _ => 0x20) [] initRowAcc 3 (by decide)
  rw [h]
  decide

/-- C6, counterexample: with two active nodes the returned structure has a
16x16 rates matrix and 16 GCD entries, not 2x2 and 2 as the claim states. -/
theorem C6_counterexample :
    (getPhyRates scLocalInfo scNetInfo scFmr).map
        (fun r => (r.nodes.length, r.rates.length, r.gcdRates.length)) =
      some (2, 16, 16) ∧ (16 : Nat) ≠ 2 := by
  constructor <;> decide

/-- C6 (amended): a successful full decode always returns a
`MAX_NUM_NODES x MAX_NUM_NODES` rates matrix and a `MAX_NUM_NODES`-long
GCD vector (the pre-allocated 16x16 arrays of the source), of which only
the leading `N = |ActiveNodeList| <= MAX_NUM_NODES` positions are
populated. -/
theorem C6_result_shape (lc : List Nat) (nf : Nat → List Nat)
    (ff : Nat → List (Option Nat)) (r : PhyRatesResult)
    (h : getPhyRates lc nf ff = some r) :
    r.rates.length = MAX_NUM_NODES ∧
      (∀ row ∈ r.rates, row.length = MAX_NUM_NODES) ∧
      r.gcdRates.length = MAX_NUM_NODES ∧
      r.nodes.length ≤ MAX_NUM_NODES := by
  unfold getPhyRates at h
  split at h
  · split at h
    · split at h
      · exact absurd h (by simp)
      · split at h
        · injection h with h
          subst h
          exact decodeMatrix_shape _ _ _ _ (activeNodes_length_le _)
        · exact absurd h (by simp)
    · exact absurd h (by simp)
  · exact absurd h (by simp)

/-- C6 witness: the amended shape at the concrete scenario inputs. -/
theorem C6_witness :
    (getPhyRates scLocalInfo scNetInfo scFmr).map
        (fun r => (r.rates.length, r.gcdRates.length)) = some (16, 16) := by
  obtain ⟨r, hr⟩ : ∃ r, getPhyRates scLocalInfo scNetInfo scFmr = some r := ⟨_, rfl⟩
  have h := C6_result_shape scLocalInfo scNetInfo scFmr r hr
  rw [hr, Option.map_some', h.1, h.2.2.1]
  rfl

/-- Concrete valid-per-claim input for C7: a well-formed topology dump
(active node set `{0}`, NC node 0) whose net-info dumps are empty; every
raw word is a well-formed integer, yet the decode yields no result
(the source raises an uncaught IndexError reading net-info word 4). -/
def c7LocalInfo : List Nat := [0, 0, 0, 0, 0, 0, 0, 0, 0, 0, 0, 0, 1]

/-- C7, counterexample: an input made only of well-formed words on which
the full decode surfaces a failure instead of returning a result. -/
theorem C7_counterexample :
    getPhyRates c7LocalInfo (fun _ => []) (fun _ => []) = none := by
  decide

/-- C7 (amended): when the topology dump has at least 13 words, its
network-coordinator id (word 1, low byte) denotes an active node below
`MAX_NUM_NODES` (the spec's invariant that the NC is always active), and
every net-info dump carries its version word (at least 5 words), the full
decode always returns a result, every cell of `rates` and every entry of
`gcdRates` is a non-negative integer, and both rate-formula denominators
are strictly positive for every gap value. -/
theorem C7_no_surfacing (lc : List Nat) (nf : Nat → List Nat)
    (ff : Nat → List (Option Nat)) (hlc : 13 ≤ lc.length)
    (hnc : ∀ w1 w12, lc.get? 1 = some w1 → lc.get? 12 = some w12 →
      (w1 &&& 0xFF) < MAX_NUM_NODES ∧ w12 &&& (1 <<< (w1 &&& 0xFF)) ≠ 0)
    (hnf : ∀ n, 5 ≤ (nf n).length) :
    (∃ r, getPhyRates lc nf ff = some r ∧
        (∀ row ∈ r.rates, ∀ x ∈ row, 0 ≤ (x : Int)) ∧
        ∀ g ∈ r.gcdRates, 0 ≤ (g : Int)) ∧
      ∀ gap : Nat, 0 < den50 gap ∧ 0 < den100 gap := by
  constructor
  · obtain ⟨w0, hw0⟩ : ∃ w, lc.get? 0 = some w := by
      cases hw : lc.get? 0 with
      | none => rw [List.get?_eq_none] at hw; omega
      | some w => exact ⟨w, rfl⟩
    obtain ⟨w1, hw1⟩ : ∃ w, lc.get? 1 = some w := by
      cases hw : lc.get? 1 with
      | none => rw [List.get?_eq_none] at hw; omega
      | some w => exact ⟨w, rfl⟩
    obtain ⟨w11, hw11⟩ : ∃ w, lc.get? 11 = some w := by
      cases hw : lc.get? 11 with
      | none => rw [List.get?_eq_none] at hw; omega
      | some w => exact ⟨w, rfl⟩
    obtain ⟨w12, hw12⟩ : ∃ w, lc.get? 12 = some w := by
      cases hw : lc.get? 12 with
      | none => rw [List.get?_eq_none] at hw; omega
      | some w => exact ⟨w, rfl⟩
    have hsome : ∀ n, ((nf n).get? 4).isSome := by
      intro n
      rw [Option.isSome_iff_ne_none, Ne, List.get?_eq_none]
      have := hnf n
      omega
    obtain ⟨wnc, hwnc⟩ := Option.isSome_iff_exists.mp (hsome (w1 &&& 0xFF))
    have hall : (activeNodes w12).all (fun n => ((nf n).get? 4).isSome) = true := by
      rw [List.all_eq_true]
      intro n _
      exact hsome n
    have hncA := hnc w1 w12 hw1 hw12
    refine ⟨decodeMatrix (wnc &&& 0xFF)
      (fun n => ((nf n).get? 4).getD 0) ff (activeNodes w12), ?_, ?_, ?_⟩
    · simp only [getPhyRates, hw0, hw1, hw11, hw12]
      rw [if_pos hncA]
      simp only [hwnc]
      rw [if_pos hall]
    · intro row _ x _
      exact Int.natCast_nonneg x
    · intro g _
      exact Int.natCast_nonneg g
  · intro gap
    constructor
    · unfold den50 FFT_LEN_50MHZ
      omega
    · unfold den100 FFT_LEN_100MHZ
      omega

/-- C7 witness: the amended statement at the concrete scenario inputs. -/
theorem C7_witness :
    (getPhyRates scLocalInfo scNetInfo scFmr).isSome = true ∧ 0 < den50 3 := by
  have hnc : ∀ w1 w12, scLocalInfo.get? 1 = some w1 → scLocalInfo.get? 12 = some w12 →
      (w1 &&& 0xFF) < MAX_NUM_NODES ∧ w12 &&& (1 <<< (w1 &&& 0xFF)) ≠ 0 := by
    intro w1 w12 h1 h12
    injection h1 with h1
    injection h12 with h12
    subst h1
    subst h12
    decide
  have h := C7_no_surfacing scLocalInfo scNetInfo scFmr (by decide) hnc
    (fun _ => Nat.le_refl 5)
  obtain ⟨⟨r, hr, _, _⟩, hd⟩ := h
  exact ⟨by rw [hr]; rfl, (hd 3).1⟩

/-- Concrete row for C8: versions `0x20` everywhere and an empty FMR dump,
so the first column's decode fails and the alignment flag does not flip. -/
def c8Seq : List DecState := rowStateSeq 0x20 0x20 0 (fun _ => 0x20) [] [0, 3]

/-- C8, counterexample: at the start of the second column the alignment
flag is still `true`, not `false` as the claimed alternation demands. -/
theorem C8_counterexample :
    (c8Seq.get? 1).map DecState.alignmentFlag = some true ∧
      (c8Seq.get? 1).map DecState.alignmentFlag ≠ some false := by
  constructor <;> decide

/-- C8 (amended): within one row the cursor starts at
`(wordIndex, alignment) = (10, true)`, the word index never decreases
across columns, and at each column the alignment flag either flips (it
does exactly when that column's field block decodes successfully) or the
whole cursor state is unchanged (on a failed decode); hence the flag
alternates true/false/... whenever every column decodes successfully. -/
theorem C8_cursor_monotone (ncv rv rid : Nat) (verOf : Nat → Nat)
    (fmr : List (Option Nat)) (nodeId : List Nat) :
    (rowStateSeq ncv rv rid verOf fmr nodeId).head? = some initState ∧
      List.Chain'
        (fun s1 s2 : DecState =>
          s1.readIndx ≤ s2.readIndx ∧
            (s2.alignmentFlag = !s1.alignmentFlag ∨ s2 = s1))
        (rowStateSeq ncv rv rid verOf fmr nodeId) ∧
      ∀ (acc : RowAcc) (colId : Nat),
        decodeField (fmrPayloadVer ncv rv (verOf colId &&& 0xFF)) fmr acc.s ≠ none →
          (decodeColumn ncv rv rid verOf fmr acc colId).s.alignmentFlag =
            !acc.s.alignmentFlag := by
  refine ⟨?_, ?_, ?_⟩
  · unfold rowStateSeq
    cases nodeId <;> simp [List.scanl_nil, List.scanl_cons, initRowAcc, initState]
  · unfold rowStateSeq
    rw [List.chain'_map]
    exact chain'_scanl _ _ (decodeColumn_step ncv rv rid verOf fmr) nodeId initRowAcc
  · intro acc colId hne
    unfold decodeColumn
    cases h : decodeField (fmrPayloadVer ncv rv (verOf colId &&& 0xFF)) fmr acc.s with
    | none => exact absurd h hne
    | some p =>
        obtain ⟨f, s'⟩ := p
        simp only [h]
        exact (decodeField_state h).2

/-- C8 witness: the flip-on-success part at a concrete successful column. -/
theorem C8_witness :
    (decodeColumn 0x20 0x20 0 (fun _ => 0x20) (scFmr 0) initRowAcc 0).s.alignmentFlag =
      !initState.alignmentFlag :=
  (C8_cursor_monotone 0x20 0x20 0 (fun _ => 0x20) (scFmr 0) [0]).2.2 initRowAcc 0
    (by decide)

/-- C9: a topology dump of fewer than 13 words makes the whole decode
yield no result at all. -/
theorem C9_short_topology (lc : List Nat) (nf : Nat → List Nat)
    (ff : Nat → List (Option Nat)) (h : lc.length < 13) :
    getPhyRates lc nf ff = none := by
  have h12 : lc.get? 12 = none := List.get?_eq_none.mpr (by omega)
  unfold getPhyRates
  rw [h12]
  cases h0 : lc.get? 0 <;> cases h1 : lc.get? 1 <;> cases h11 : lc.get? 11 <;> rfl

/-- C9 witness: the empty topology dump yields no result. -/
theorem C9_witness : getPhyRates [] scNetInfo scFmr = none :=
  C9_short_topology [] scNetInfo scFmr (by decide)

/-- C10: when a column's field block fails to decode, the cursor state
(word index and alignment flag) is unchanged by that column, so the next
column starts from exactly the state the failing column started from. -/
theorem C10_state_kept_on_failure (ncv rv rid : Nat) (verOf : Nat → Nat)
    (fmr : List (Option Nat)) (acc : RowAcc) (colId : Nat)
    (h : decodeField (fmrPayloadVer ncv rv (verOf colId &&& 0xFF)) fmr acc.s = none) :
    (decodeColumn ncv rv rid verOf fmr acc colId).s = acc.s := by
  unfold decodeColumn
  simp [h]

/-- C10 witness: the frozen state at a concrete failing column. -/
theorem C10_witness :
    (decodeColumn 0x10 0x11 0 (fun _ => 0x11) [] initRowAcc 0).s = initState :=
  C10_state_kept_on_failure 0x10 0x11 0 (fun _ => 0x11) [] initRowAcc 0 (by decide)

end GoCoax
